import Mathlib

/-!
Verification of the 5chan board archiver against its specification.

The development shallowly embeds the archiver's state store (`state.ts`:
`loadState`, `saveState`, `isPidAlive` support) and the archival control
loop components (lifecycle evaluator, purge scheduling, update scheduler,
process lock, fallback active-sort comparator).  File contents are
modelled at the level of parsed JSON values: `readFileSync` followed by
`JSON.parse` either throws (missing file or malformed content) or yields
a JSON value, which the code returns unvalidated.
-/

namespace FiveChan

/-- JSON values, as produced by `JSON.parse` and consumed by
`JSON.stringify`.  Numbers are restricted to the integers actually used
by the archiver (integer-second timestamps and process ids). -/
inductive Json where
  | null
  | bool (b : Bool)
  | num (n : Int)
  | str (s : String)
  | arr (elems : List Json)
  | obj (fields : List (String × Json))

/-- Signer material stored per board (`signers` map values). -/
structure SignerInfo where
  privateKey : String
deriving DecidableEq

/-- Value of an entry of `lockedThreads`: when the thread was locked. -/
structure ThreadRecord where
  lockTimestamp : Int
deriving DecidableEq

/-- The process-lock record optionally present in the state. -/
structure LockRecord where
  pid : Int
deriving DecidableEq

/-- `ArchiverState` from `types.ts` / `state.ts`: the per-board persisted
record.  JS objects are modelled as association lists. -/
structure ArchiverState where
  signers : List (String × SignerInfo)
  lockedThreads : List (String × ThreadRecord)
  lock : Option LockRecord := none
deriving DecidableEq

/-- `DEFAULT_STATE` from `state.ts`. -/
def DEFAULT_STATE : ArchiverState := { signers := [], lockedThreads := [] }

/-- JSON encoding of one signer record, per `JSON.stringify`. -/
def signerToJson (s : SignerInfo) : Json :=
  .obj [("privateKey", .str s.privateKey)]

/-- JSON encoding of one locked-thread record, per `JSON.stringify`. -/
def threadRecordToJson (r : ThreadRecord) : Json :=
  .obj [("lockTimestamp", .num r.lockTimestamp)]

/-- JSON fields contributed by the optional `lock` record;
`JSON.stringify` omits the key entirely when the field is `undefined`. -/
def lockToJsonFields : Option LockRecord → List (String × Json)
  | none => []
  | some l => [("lock", .obj [("pid", .num l.pid)])]

/-- `JSON.stringify` of a full `ArchiverState`, at the JSON-value level. -/
def stateToJson (st : ArchiverState) : Json :=
  .obj ([("signers", .obj (st.signers.map fun p => (p.1, signerToJson p.2))),
         ("lockedThreads", .obj (st.lockedThreads.map fun p => (p.1, threadRecordToJson p.2)))]
        ++ lockToJsonFields st.lock)

/-- A file path, as a list of components (last component is the file). -/
abbrev StorePath := List String

/-- What `readFileSync` + `JSON.parse` at a stored file can produce:
content that fails `JSON.parse`, or a parsed JSON value. -/
inductive FileData where
  | malformed
  | jsonData (v : Json)

/-- The relevant slice of the filesystem: which directories exist and
which files hold what.  A path absent from `files` is a missing file. -/
structure FS where
  dirs : List StorePath
  files : List (StorePath × FileData)

/-- `dirname` of a path: all components but the last. -/
def dirname (p : StorePath) : StorePath := p.dropLast

/-- `loadState` from `state.ts`: `readFileSync` then `JSON.parse` inside
a catch-all `try`; a missing file or unparseable content yields a clone
of `DEFAULT_STATE`.  A successfully parsed value is returned as-is: the
`as ArchiverState` cast performs no runtime validation. -/
def loadState (fs : FS) (p : StorePath) : Json :=
  match fs.files.lookup p with
  | some (.jsonData v) => v
  | _ => stateToJson DEFAULT_STATE

/-- `mkdirSync(dir, { recursive: true })`: creates the directory and
every missing ancestor. -/
def mkdirRecursive (fs : FS) (d : StorePath) : FS :=
  { fs with dirs := (List.range d.length).map (fun i => d.take (i + 1)) ++ fs.dirs }

/-- `writeFileSync`: overwrites the file, failing (`none`, modelling the
thrown `ENOENT`) when the parent directory does not exist.  The empty
dirname denotes the always-existing working directory. -/
def writeFile (fs : FS) (p : StorePath) (c : FileData) : Option FS :=
  if dirname p = [] ∨ dirname p ∈ fs.dirs then
    some { fs with files := (p, c) :: fs.files.filter (fun q => q.1 != p) }
  else
    none

/-- `saveState` from `state.ts`: `mkdirSync(dirname(path), recursive)`
then `writeFileSync(path, JSON.stringify(state, null, 2) + '\n')`. -/
def saveState (fs : FS) (p : StorePath) (st : ArchiverState) : Option FS :=
  writeFile (mkdirRecursive fs (dirname p)) p (.jsonData (stateToJson st))

/-- Claim-statement helper: is this JSON value a JSON object? -/
def isObjectJson : Json → Bool
  | .obj _ => true
  | _ => false

/-- Claim-statement helper: field access on a JSON object. -/
def jsonField (v : Json) (k : String) : Option Json :=
  match v with
  | .obj fields => fields.lookup k
  | _ => none

/-- Claim-statement helper: the `BoardState` shape required by the spec,
an object with object-valued `signers` and `lockedThreads` fields. -/
def hasArchiverStateShape (v : Json) : Bool :=
  (((jsonField v "signers").map isObjectJson).getD false)
    && (((jsonField v "lockedThreads").map isObjectJson).getD false)

/-- An ephemeral thread summary as seen by one evaluation cycle
(`ThreadComment` in the tests): identifier, pinned and locked flags,
reply count, optional last-reply timestamp and sequence/post number. -/
structure ThreadSummary where
  cid : String
  pinned : Bool
  locked : Bool
  replyCount : Nat
  lastReplyTimestamp : Option Int := none
  postNumber : Option Int := none
deriving DecidableEq

/-- Modelled from the spec: the lifecycle evaluator's lock-candidate
computation lives in `archiver.ts`, which is not under `src/` (only its
tests are).  Per spec section 4.4 and the tests: filter out pinned
threads; among the remainder in rank order, threads beyond index
`capacity` that the platform has not already locked are capacity
candidates; threads with `replyCount >= bumpLimit`, not pinned and not
platform-locked, are bump-limit candidates; the union is filtered by
idempotency against `trackedState.lockedThreads`. -/
def lockCandidates (threads : List ThreadSummary) (capacity bumpLimit : Nat)
    (st : ArchiverState) : List ThreadSummary :=
  let nonPinned := threads.filter fun t => !t.pinned
  let beyondCapacity := (nonPinned.drop capacity).filter fun t => !t.locked
  let atBumpLimit :=
    threads.filter fun t => !t.pinned && !t.locked && decide (bumpLimit ≤ t.replyCount)
  let merged :=
    beyondCapacity ++ atBumpLimit.filter fun t => !((beyondCapacity.map (·.cid)).contains t.cid)
  merged.filter fun t => (st.lockedThreads.lookup t.cid).isNone

/-- Modelled from the spec: the purge-candidate computation lives in
`archiver.ts`, which is not under `src/`.  Per spec section 4.4 and the
purge-timing tests: every tracked entry with
`now - lockTimestamp > purgeAfterSeconds` (strict) is a purge candidate. -/
def purgeCandidates (st : ArchiverState) (now purgeAfterSeconds : Int) :
    List (String × ThreadRecord) :=
  st.lockedThreads.filter fun e => decide (purgeAfterSeconds < now - e.2.lockTimestamp)

/-- Update Scheduler states (spec section 4.6): idle, a cycle in flight,
or a cycle in flight with at least one further notification pending. -/
inductive SchedState where
  | idle
  | running
  | runningPending
deriving DecidableEq

/-- Events driving the Update Scheduler: an external change
notification, or completion of the in-flight evaluation cycle. -/
inductive SchedEvent where
  | notify
  | complete
deriving DecidableEq

/-- Modelled from the spec: the update scheduler lives in `archiver.ts`,
which is not under `src/`.  Per spec section 4.6: one transition step,
returning the next state and how many evaluation cycles it starts. -/
def schedStep : SchedState → SchedEvent → SchedState × Nat
  | .idle, .notify => (.running, 1)
  | .running, .notify => (.runningPending, 0)
  | .runningPending, .notify => (.runningPending, 0)
  | .idle, .complete => (.idle, 0)
  | .running, .complete => (.idle, 0)
  | .runningPending, .complete => (.running, 1)

/-- Run the scheduler over a sequence of events, counting every
evaluation cycle started along the way. -/
def schedRun : SchedState → List SchedEvent → SchedState × Nat
  | s, [] => (s, 0)
  | s, e :: es =>
    let r := schedStep s e
    let r2 := schedRun r.1 es
    (r2.1, r.2 + r2.2)

/-- Modelled from the spec: process-lock acquisition at startup lives in
`archiver.ts`, which is not under `src/`.  Per spec section 4.2 and the
process-lock tests: if the loaded state records a lock held by a live
process, fail fast with an error naming the board and the blocking pid
(message shape from the tests); otherwise overwrite the lock with the
current process id. -/
def acquireProcessLock (board : String) (alive : Int → Bool) (selfPid : Int)
    (st : ArchiverState) : Except String ArchiverState :=
  match st.lock with
  | some l =>
    if alive l.pid then
      .error ("Another archiver (PID " ++ toString l.pid ++ ") is already running for " ++ board)
    else
      .ok { st with lock := some ⟨selfPid⟩ }
  | none => .ok { st with lock := some ⟨selfPid⟩ }

/-- Modelled from the spec: startup acquires the process lock from the
loaded state and persists the overwritten record via `saveState` before
any network activity (spec section 4.2). -/
def startupAcquireAndPersist (fs : FS) (p : StorePath) (board : String)
    (alive : Int → Bool) (selfPid : Int) (st : ArchiverState) : Except String FS :=
  match acquireProcessLock board alive selfPid st with
  | .error e => .error e
  | .ok st2 =>
    match saveState fs p st2 with
    | some fs2 => .ok fs2
    | none => .error "failed to persist archiver state"

/-- Modelled from the spec: the fallback active-sort comparator lives in
`archiver.ts`, which is not under `src/`; the tests replicate it
verbatim: `(b.lastReplyTimestamp ?? 0) - (a.lastReplyTimestamp ?? 0)`,
and on a zero difference `(b.postNumber ?? 0) - (a.postNumber ?? 0)`. -/
def activeCmp (a b : ThreadSummary) : Int :=
  if b.lastReplyTimestamp.getD 0 - a.lastReplyTimestamp.getD 0 ≠ 0 then
    b.lastReplyTimestamp.getD 0 - a.lastReplyTimestamp.getD 0
  else
    b.postNumber.getD 0 - a.postNumber.getD 0

/-- `a` sorts no later than `b` under the fallback comparator
(comparator value at most zero). -/
def activeLE (a b : ThreadSummary) : Prop := activeCmp a b ≤ 0

instance : DecidableRel activeLE :=
  fun a b => inferInstanceAs (Decidable (activeCmp a b ≤ 0))

/-- The sort key the comparator effectively orders by (descending):
last-reply timestamp then sequence/post number, absent fields as 0. -/
def activeKey (t : ThreadSummary) : Int × Int :=
  (t.lastReplyTimestamp.getD 0, t.postNumber.getD 0)

/-- The fallback ranking applied to the collected threads: a stable sort
by the comparator, modelling ECMAScript `Array.prototype.sort`. -/
def sortActive (l : List ThreadSummary) : List ThreadSummary :=
  List.insertionSort activeLE l

/-- Claim-statement helper: a thread with its optional sort fields
replaced by their explicit defaults (absent compared as 0). -/
def normalizeThread (t : ThreadSummary) : ThreadSummary :=
  { t with lastReplyTimestamp := some (t.lastReplyTimestamp.getD 0),
           postNumber := some (t.postNumber.getD 0) }

instance : IsRefl ThreadSummary activeLE :=
  ⟨fun a => by simp only [activeLE, activeCmp]; split_ifs <;> omega⟩

instance : IsTotal ThreadSummary activeLE :=
  ⟨fun a b => by simp only [activeLE, activeCmp]; split_ifs <;> omega⟩

instance : IsTrans ThreadSummary activeLE :=
  ⟨fun a b c hab hbc => by
    simp only [activeLE, activeCmp] at hab hbc ⊢
    split_ifs at hab hbc ⊢ <;> omega⟩

/-! ## Helper lemmas -/

/-- The comparator orders by the descending lexicographic order on
`activeKey`. -/
theorem activeLE_iff (a b : ThreadSummary) :
    activeLE a b ↔
      ((activeKey b).1 < (activeKey a).1
        ∨ ((activeKey b).1 = (activeKey a).1 ∧ (activeKey b).2 ≤ (activeKey a).2)) := by
  simp only [activeLE, activeCmp, activeKey]
  split_ifs <;> omega

/-- Two sorted lists that are permutations of each other agree, given
antisymmetry of the order on the members of the first list. -/
theorem sorted_perm_eq_of_antisymm_on {α : Type} {r : α → α → Prop} [IsRefl α r] :
    ∀ (l1 l2 : List α), List.Perm l1 l2 → l1.Sorted r → l2.Sorted r →
      (∀ a ∈ l1, ∀ b ∈ l1, r a b → r b a → a = b) → l1 = l2 := by
  intro l1
  induction l1 with
  | nil =>
    intro l2 hp _ _ _
    exact (hp.symm.eq_nil).symm
  | cons a t1 ih =>
    intro l2 hp hs1 hs2 hanti
    cases l2 with
    | nil => exact absurd hp.eq_nil (by simp)
    | cons b t2 =>
      obtain ⟨ha1, hst1⟩ := List.sorted_cons.mp hs1
      obtain ⟨hb2, hst2⟩ := List.sorted_cons.mp hs2
      have hbmem : b ∈ a :: t1 := hp.symm.subset (List.mem_cons_self b t2)
      have hrab : r a b := by
        rcases List.mem_cons.mp hbmem with h | h
        · exact h ▸ refl_of r a
        · exact ha1 b h
      have hrba : r b a := by
        have hamem : a ∈ b :: t2 := hp.subset (List.mem_cons_self a t1)
        rcases List.mem_cons.mp hamem with h | h
        · exact h ▸ refl_of r b
        · exact hb2 a h
      have hab : a = b := hanti a (List.mem_cons_self a t1) b hbmem hrab hrba
      subst hab
      have htp : List.Perm t1 t2 := hp.cons_inv
      have : t1 = t2 :=
        ih t2 htp hst1 hst2 fun x hx y hy => hanti x (List.mem_cons_of_mem a hx) y
          (List.mem_cons_of_mem a hy)
      rw [this]

/-- `mkdirSync(d, recursive)` results in `d` existing (the empty path is
the always-existing working directory). -/
theorem mkdirRecursive_creates (fs : FS) (d : StorePath) :
    d = [] ∨ d ∈ (mkdirRecursive fs d).dirs := by
  by_cases h : d = []
  · exact Or.inl h
  · refine Or.inr ?_
    have hlen : 0 < d.length := List.length_pos.mpr h
    simp only [mkdirRecursive, List.mem_append]
    refine Or.inl (List.mem_map.mpr ⟨d.length - 1, List.mem_range.mpr (by omega), ?_⟩)
    have : d.length - 1 + 1 = d.length := by omega
    rw [this, List.take_length]

/-- `saveState` always succeeds and leaves at the target path exactly
the JSON encoding of the saved state. -/
theorem saveState_succeeds_and_stores (fs : FS) (p : StorePath) (st : ArchiverState) :
    ∃ fs2, saveState fs p st = some fs2 ∧ loadState fs2 p = stateToJson st := by
  have hdir : dirname p = [] ∨ dirname p ∈ (mkdirRecursive fs (dirname p)).dirs :=
    mkdirRecursive_creates fs (dirname p)
  have hw : saveState fs p st
      = some { mkdirRecursive fs (dirname p) with
               files := (p, FileData.jsonData (stateToJson st))
                 :: (mkdirRecursive fs (dirname p)).files.filter (fun q => q.1 != p) } := by
    simp only [saveState, writeFile, if_pos hdir]
  refine ⟨_, hw, ?_⟩
  simp only [loadState, List.lookup, beq_self_eq_true]

/-- `stateToJson` is injective: distinct states have distinct encodings,
so equality of loaded JSON values coincides with equality of states. -/
theorem stateToJson_injective (st1 st2 : ArchiverState) :
    stateToJson st1 = stateToJson st2 → st1 = st2 := by
  obtain ⟨s1, t1, k1⟩ := st1
  obtain ⟨s2, t2, k2⟩ := st2
  intro h
  simp only [stateToJson, List.cons_append, List.nil_append, Json.obj.injEq,
    List.cons.injEq, Prod.mk.injEq, true_and] at h
  obtain ⟨hs, ht, hk⟩ := h
  have hsinj : Function.Injective (fun p : String × SignerInfo => (p.1, signerToJson p.2)) := by
    intro p q hpq
    obtain ⟨pk, pv⟩ := p
    obtain ⟨qk, qv⟩ := q
    obtain ⟨ps⟩ := pv
    obtain ⟨qs⟩ := qv
    simp only [signerToJson, Prod.mk.injEq, Json.obj.injEq, List.cons.injEq,
      Json.str.injEq, and_true, true_and] at hpq
    simp [hpq.1, hpq.2]
  have htinj : Function.Injective (fun p : String × ThreadRecord => (p.1, threadRecordToJson p.2)) := by
    intro p q hpq
    obtain ⟨pk, pv⟩ := p
    obtain ⟨qk, qv⟩ := q
    obtain ⟨ps⟩ := pv
    obtain ⟨qs⟩ := qv
    simp only [threadRecordToJson, Prod.mk.injEq, Json.obj.injEq, List.cons.injEq,
      Json.num.injEq, and_true, true_and] at hpq
    simp [hpq.1, hpq.2]
  have hs2 : s1 = s2 := List.map_injective_iff.mpr hsinj hs
  have ht2 : t1 = t2 := List.map_injective_iff.mpr htinj ht
  have hk2 : k1 = k2 := by
    cases k1 with
    | none =>
      cases k2 with
      | none => rfl
      | some l2 => simp [lockToJsonFields] at hk
    | some l1 =>
      cases k2 with
      | none => simp [lockToJsonFields] at hk
      | some l2 =>
        obtain ⟨p1⟩ := l1
        obtain ⟨p2⟩ := l2
        simp only [lockToJsonFields, List.cons.injEq, Prod.mk.injEq, Json.obj.injEq,
          Json.num.injEq, true_and, and_true] at hk
        simp [hk]
  rw [hs2, ht2, hk2]

/-- While a cycle is in flight with a pending flag, any further
notifications are no-ops, and the eventual completion starts exactly one
follow-up cycle. -/
theorem schedRun_runningPending_notifications (k : Nat) :
    schedRun .runningPending (List.replicate k .notify ++ [.complete]) = (.running, 1) := by
  induction k with
  | zero => rfl
  | succ n ih =>
    simp only [List.replicate_succ, List.cons_append, schedRun, schedStep]
    simp [ih]

/-! ## Claims -/

/-- C1 counterexample: `loadState` performs no shape validation after
`JSON.parse`; a file whose content is the well-formed JSON value `5` is
returned as-is, which is not the default state and does not have the
`BoardState` shape.  This refutes the claim that the value returned
always has the `BoardState` shape. -/
theorem loadState_shape_counterexample :
    hasArchiverStateShape
        (loadState ⟨[], [(["state.json"], .jsonData (.num 5))]⟩ ["state.json"]) = false
      ∧ hasArchiverStateShape (stateToJson DEFAULT_STATE) = true
      ∧ loadState ⟨[], [(["state.json"], .jsonData (.num 5))]⟩ ["state.json"]
          ≠ stateToJson DEFAULT_STATE := by
  refine ⟨by decide, by decide, ?_⟩
  intro h
  have hs : hasArchiverStateShape
      (loadState ⟨[], [(["state.json"], .jsonData (.num 5))]⟩ ["state.json"]) = false := by
    decide
  rw [h] at hs
  exact absurd hs (by decide)

/-- C1 (amended): for every path, `loadState` never raises (it is a
total function): on a missing file or content that fails JSON parsing it
returns the structurally valid default `{signers: {}, lockedThreads: {}}`;
however, a file holding well-formed JSON of any shape is returned
unvalidated, so the result need not have the `BoardState` shape. -/
theorem loadState_total_with_default :
    ∀ (fs : FS) (p : StorePath),
      (fs.files.lookup p = none → loadState fs p = stateToJson DEFAULT_STATE)
      ∧ (fs.files.lookup p = some .malformed → loadState fs p = stateToJson DEFAULT_STATE)
      ∧ (∀ v, fs.files.lookup p = some (.jsonData v) → loadState fs p = v) := by
  intro fs p
  refine ⟨fun h => ?_, fun h => ?_, fun v h => ?_⟩ <;> simp [loadState, h]

/-- Witness for the amended C1 at a concrete missing file. -/
theorem loadState_total_with_default_witness :
    loadState ⟨[], []⟩ ["missing.json"] = stateToJson DEFAULT_STATE :=
  (loadState_total_with_default ⟨[], []⟩ ["missing.json"]).1 rfl

/-- C2: an identifier tracked in `lockedThreads` is a purge candidate if
and only if `now - lockTimestamp > purgeAfterSeconds`, with strict
inequality: an entry aged exactly `purgeAfterSeconds` is not a candidate
and an entry aged `purgeAfterSeconds + 1` is. -/
theorem purgeCandidates_strict_age :
    ∀ (st : ArchiverState) (now purgeAfterSeconds : Int) (cid : String) (info : ThreadRecord),
      ((cid, info) ∈ purgeCandidates st now purgeAfterSeconds
        ↔ ((cid, info) ∈ st.lockedThreads ∧ purgeAfterSeconds < now - info.lockTimestamp))
      ∧ ((cid, info) ∈ st.lockedThreads → now - info.lockTimestamp = purgeAfterSeconds →
          (cid, info) ∉ purgeCandidates st now purgeAfterSeconds)
      ∧ ((cid, info) ∈ st.lockedThreads → now - info.lockTimestamp = purgeAfterSeconds + 1 →
          (cid, info) ∈ purgeCandidates st now purgeAfterSeconds) := by
  intro st now purge cid info
  have hmem : (cid, info) ∈ purgeCandidates st now purge
      ↔ (cid, info) ∈ st.lockedThreads ∧ purge < now - info.lockTimestamp := by
    simp [purgeCandidates, List.mem_filter]
  refine ⟨hmem, fun h1 h2 hc => ?_, fun h1 h2 => ?_⟩
  · have := hmem.mp hc
    omega
  · exact hmem.mpr ⟨h1, by omega⟩

/-- Witness for C2 at a concrete state: an entry one second past the
threshold is purged, an entry exactly at the threshold is not. -/
theorem purgeCandidates_strict_age_witness :
    ("QmOld", ThreadRecord.mk 0)
        ∈ purgeCandidates ⟨[], [("QmOld", ⟨0⟩), ("QmExact", ⟨1⟩)], none⟩ 11 10
      ∧ ("QmExact", ThreadRecord.mk 1)
        ∉ purgeCandidates ⟨[], [("QmOld", ⟨0⟩), ("QmExact", ⟨1⟩)], none⟩ 11 10 :=
  ⟨(purgeCandidates_strict_age ⟨[], [("QmOld", ⟨0⟩), ("QmExact", ⟨1⟩)], none⟩ 11 10
      "QmOld" ⟨0⟩).2.2 (by decide) (by decide),
   (purgeCandidates_strict_age ⟨[], [("QmOld", ⟨0⟩), ("QmExact", ⟨1⟩)], none⟩ 11 10
      "QmExact" ⟨1⟩).2.1 (by decide) (by decide)⟩

/-- C3: from a state with one cycle in flight, any burst of `k ≥ 2`
notifications followed by the cycle's completion starts exactly one
follow-up cycle (never one per notification); a cycle during which no
notification arrives starts no follow-up; a notification never starts a
cycle while one is in flight, and no transition ever starts more than
one cycle. -/
theorem updateScheduler_coalesces :
    ∀ k : Nat, 2 ≤ k →
      schedRun .running (List.replicate k .notify ++ [.complete]) = (.running, 1)
      ∧ schedRun .running [.complete] = (.idle, 0)
      ∧ (∀ s : SchedState, s ≠ .idle → (schedStep s .notify).2 = 0)
      ∧ (∀ (s : SchedState) (e : SchedEvent), (schedStep s e).2 ≤ 1) := by
  intro k hk
  refine ⟨?_, rfl, ?_, ?_⟩
  · obtain ⟨j, rfl⟩ : ∃ j, k = j + 1 := ⟨k - 1, by omega⟩
    simp only [List.replicate_succ, List.cons_append, schedRun, schedStep]
    simp [schedRun_runningPending_notifications j]
  · intro s hs
    cases s <;> simp_all [schedStep]
  · intro s e
    cases s <;> cases e <;> simp [schedStep]

/-- Witness for C3: two notifications during a blocked cycle yield
exactly one coalesced follow-up cycle. -/
theorem updateScheduler_coalesces_witness :
    schedRun .running (List.replicate 2 .notify ++ [.complete]) = (.running, 1) :=
  (updateScheduler_coalesces 2 (by decide)).1

/-- C4: on startup, a persisted lock record naming a live process makes
the archiver fail fast with an error naming the board and the blocking
pid; an absent lock record or one naming a dead process lets startup
succeed, overwriting the record with the current pid and persisting it. -/
theorem processLock_startup :
    ∀ (fs : FS) (p : StorePath) (board : String) (alive : Int → Bool) (selfPid : Int)
      (st : ArchiverState),
      (∀ l, st.lock = some l → alive l.pid = true →
        startupAcquireAndPersist fs p board alive selfPid st
          = .error ("Another archiver (PID " ++ toString l.pid
              ++ ") is already running for " ++ board))
      ∧ ((st.lock = none ∨ ∃ l, st.lock = some l ∧ alive l.pid = false) →
        ∃ fs2, startupAcquireAndPersist fs p board alive selfPid st = .ok fs2
          ∧ loadState fs2 p = stateToJson { st with lock := some ⟨selfPid⟩ }) := by
  intro fs p board alive selfPid st
  constructor
  · intro l hl halive
    simp [startupAcquireAndPersist, acquireProcessLock, hl, halive]
  · intro hcase
    have hok : acquireProcessLock board alive selfPid st
        = .ok { st with lock := some ⟨selfPid⟩ } := by
      rcases hcase with h | ⟨l, hl, hdead⟩
      · simp [acquireProcessLock, h]
      · simp [acquireProcessLock, hl, hdead]
    obtain ⟨fs2, hsave, hload⟩ :=
      saveState_succeeds_and_stores fs p { st with lock := some ⟨selfPid⟩ }
    exact ⟨fs2, by simp [startupAcquireAndPersist, hok, hsave], hload⟩

/-- Witness for C4: a live blocking pid 42 aborts startup with the exact
message; a stale pid 99 lets startup succeed and persist pid 7. -/
theorem processLock_startup_witness :
    startupAcquireAndPersist ⟨[], []⟩ ["board.eth.json"] "board.eth"
        (fun q => q == (42 : Int)) 7 ⟨[], [], some ⟨42⟩⟩
      = .error ("Another archiver (PID " ++ toString (42 : Int)
          ++ ") is already running for " ++ "board.eth")
    ∧ ∃ fs2,
        startupAcquireAndPersist ⟨[], []⟩ ["board.eth.json"] "board.eth"
            (fun q => q == (42 : Int)) 7 ⟨[], [], some ⟨99⟩⟩
          = .ok fs2
        ∧ loadState fs2 ["board.eth.json"]
          = stateToJson ⟨[], [], some ⟨7⟩⟩ :=
  ⟨(processLock_startup ⟨[], []⟩ ["board.eth.json"] "board.eth"
      (fun q => q == (42 : Int)) 7 ⟨[], [], some ⟨42⟩⟩).1 ⟨42⟩ rfl (by decide),
   (processLock_startup ⟨[], []⟩ ["board.eth.json"] "board.eth"
      (fun q => q == (42 : Int)) 7 ⟨[], [], some ⟨99⟩⟩).2
     (Or.inr ⟨⟨99⟩, rfl, by decide⟩)⟩

/-- C5: a pinned thread is never in the lock-candidate set, regardless
of its rank position, reply count, the limits, or the tracked state: the
pinned exemption covers the capacity rule and the bump-limit rule. -/
theorem pinned_never_lock_candidate :
    ∀ (threads : List ThreadSummary) (capacity bumpLimit : Nat) (st : ArchiverState)
      (t : ThreadSummary),
      t.pinned = true → t ∉ lockCandidates threads capacity bumpLimit st := by
  intro threads capacity bumpLimit st t hp hmem
  simp only [lockCandidates, List.mem_filter, List.mem_append] at hmem
  rcases hmem with ⟨hin | hin, -⟩
  · have h2 := List.drop_subset _ _ hin.1
    have h3 := (List.mem_filter.mp h2).2
    simp [hp] at h3
  · have h2 := hin.1.2
    simp [hp] at h2

/-- Witness for C5: a pinned thread beyond capacity and beyond the bump
limit is still not a candidate. -/
theorem pinned_never_lock_candidate_witness :
    ThreadSummary.mk "QmPin" true false 500 none none
      ∉ lockCandidates [⟨"QmPin", true, false, 500, none, none⟩] 0 1 DEFAULT_STATE :=
  pinned_never_lock_candidate [⟨"QmPin", true, false, 500, none, none⟩] 0 1 DEFAULT_STATE
    ⟨"QmPin", true, false, 500, none, none⟩ rfl

/-- C6: with no pinned exclusions interfering, no platform-locked or
tracked threads, and no thread at the bump limit, the candidates are
exactly the non-pinned threads from rank index `capacity` on, in rank
order, and there are `N - capacity` of them (truncated subtraction, i.e.
`max (0, N - capacity)`). -/
theorem capacityOverflow_exact :
    ∀ (threads : List ThreadSummary) (perPage pages bumpLimit : Nat) (st : ArchiverState),
      (∀ t ∈ threads, t.pinned = false → t.locked = false) →
      (∀ t ∈ threads, t.pinned = false → st.lockedThreads.lookup t.cid = none) →
      (∀ t ∈ threads, t.pinned = false → t.replyCount < bumpLimit) →
      lockCandidates threads (perPage * pages) bumpLimit st
          = (threads.filter fun t => !t.pinned).drop (perPage * pages)
        ∧ (lockCandidates threads (perPage * pages) bumpLimit st).length
          = (threads.filter fun t => !t.pinned).length - perPage * pages := by
  intro threads perPage pages bumpLimit st h1 h2 h3
  have hnonpinned : ∀ t ∈ (threads.filter fun t => !t.pinned), t.pinned = false := by
    intro t ht
    simpa using (List.mem_filter.mp ht).2
  have hmemthreads : ∀ t ∈ (threads.filter fun t => !t.pinned), t ∈ threads :=
    fun t ht => (List.mem_filter.mp ht).1
  have hbeyond : ((threads.filter fun t => !t.pinned).drop (perPage * pages)).filter
        (fun t => !t.locked)
      = (threads.filter fun t => !t.pinned).drop (perPage * pages) := by
    rw [List.filter_eq_self]
    intro t ht
    have hmem := List.drop_subset _ _ ht
    have := h1 t (hmemthreads t hmem) (hnonpinned t hmem)
    simp [this]
  have hbump : (threads.filter
        fun t => !t.pinned && !t.locked && decide (bumpLimit ≤ t.replyCount)) = [] := by
    rw [List.filter_eq_nil_iff]
    intro t ht
    by_cases hp : t.pinned = true
    · simp [hp]
    · have hlt := h3 t ht (by simpa using hp)
      simp only [Bool.and_eq_true, Bool.not_eq_true', decide_eq_true_eq, not_and]
      intro _ _
      omega
  have hmain : lockCandidates threads (perPage * pages) bumpLimit st
      = (threads.filter fun t => !t.pinned).drop (perPage * pages) := by
    simp only [lockCandidates]
    rw [hbeyond, hbump]
    simp only [List.filter_nil, List.append_nil]
    rw [List.filter_eq_self]
    intro t ht
    have := h2 t (hmemthreads t (List.drop_subset _ _ ht))
      (hnonpinned t (List.drop_subset _ _ ht))
    simp [this]
  exact ⟨hmain, by rw [hmain, List.length_drop]⟩

/-- Witness for C6: three unlocked, untracked, non-pinned threads with
capacity `1 * 2 = 2` yield exactly one candidate, the third in rank. -/
theorem capacityOverflow_exact_witness :
    lockCandidates [⟨"Qm0", false, false, 0, none, none⟩,
        ⟨"Qm1", false, false, 0, none, none⟩,
        ⟨"Qm2", false, false, 0, none, none⟩] (1 * 2) 1 DEFAULT_STATE
      = ([⟨"Qm0", false, false, 0, none, none⟩,
          ⟨"Qm1", false, false, 0, none, none⟩,
          ⟨"Qm2", false, false, 0, none, none⟩].filter
            fun t : ThreadSummary => !t.pinned).drop (1 * 2)
    ∧ (lockCandidates [⟨"Qm0", false, false, 0, none, none⟩,
        ⟨"Qm1", false, false, 0, none, none⟩,
        ⟨"Qm2", false, false, 0, none, none⟩] (1 * 2) 1 DEFAULT_STATE).length
      = ([⟨"Qm0", false, false, 0, none, none⟩,
          ⟨"Qm1", false, false, 0, none, none⟩,
          ⟨"Qm2", false, false, 0, none, none⟩].filter
            fun t : ThreadSummary => !t.pinned).length - 1 * 2 :=
  capacityOverflow_exact [⟨"Qm0", false, false, 0, none, none⟩,
      ⟨"Qm1", false, false, 0, none, none⟩,
      ⟨"Qm2", false, false, 0, none, none⟩] 1 2 1 DEFAULT_STATE
    (by decide) (by decide) (by decide)

/-- C7: a thread whose identifier is tracked in
`trackedState.lockedThreads` is never a lock candidate, even if it still
lies beyond capacity or exceeds the bump limit. -/
theorem tracked_never_resubmitted :
    ∀ (threads : List ThreadSummary) (capacity bumpLimit : Nat) (st : ArchiverState)
      (t : ThreadSummary) (info : ThreadRecord),
      st.lockedThreads.lookup t.cid = some info →
      t ∉ lockCandidates threads capacity bumpLimit st := by
  intro threads capacity bumpLimit st t info h hmem
  simp only [lockCandidates, List.mem_filter] at hmem
  rw [h] at hmem
  simp at hmem

/-- Witness for C7: a tracked thread beyond capacity and beyond the bump
limit is still not re-submitted. -/
theorem tracked_never_resubmitted_witness :
    ThreadSummary.mk "QmAlready" false false 500 none none
      ∉ lockCandidates [⟨"QmAlready", false, false, 500, none, none⟩] 0 1
          ⟨[], [("QmAlready", ⟨1000⟩)], none⟩ :=
  tracked_never_resubmitted [⟨"QmAlready", false, false, 500, none, none⟩] 0 1
    ⟨[], [("QmAlready", ⟨1000⟩)], none⟩
    ⟨"QmAlready", false, false, 500, none, none⟩ ⟨1000⟩ (by decide)

/-- C8 counterexample: the comparator is not antisymmetric (two distinct
threads can tie on both keys, for instance when both optional fields are
absent), so the same input multiset does not always produce the same
output sequence: the two orders of a two-element tie sort differently. -/
theorem activeSort_multiset_counterexample :
    List.Perm
        [ThreadSummary.mk "QmA" false false 0 none none,
         ThreadSummary.mk "QmB" false false 0 none none]
        [ThreadSummary.mk "QmB" false false 0 none none,
         ThreadSummary.mk "QmA" false false 0 none none]
      ∧ sortActive
          [ThreadSummary.mk "QmA" false false 0 none none,
           ThreadSummary.mk "QmB" false false 0 none none]
        ≠ sortActive
            [ThreadSummary.mk "QmB" false false 0 none none,
             ThreadSummary.mk "QmA" false false 0 none none] :=
  ⟨List.Perm.swap _ _ _, by decide⟩

/-- C8 (amended): the fallback ranking sorts descending by last-reply
timestamp with equal timestamps broken by descending sequence/post
number (absent fields as 0), producing a permutation of the input; the
output is determined by the input multiset whenever no two distinct
threads share both key values.  (Without that proviso the comparator has
ties between distinct threads, which keep their input order, so the
parenthetical multiset-determinism of the original claim fails.) -/
theorem activeSort_sorted_and_multiset_unique :
    ∀ l : List ThreadSummary,
      (sortActive l).Sorted (fun a b =>
        (activeKey b).1 < (activeKey a).1
          ∨ ((activeKey b).1 = (activeKey a).1 ∧ (activeKey b).2 ≤ (activeKey a).2))
      ∧ List.Perm (sortActive l) l
      ∧ ((∀ a ∈ l, ∀ b ∈ l, activeKey a = activeKey b → a = b) →
          ∀ l2, List.Perm l2 l → sortActive l2 = sortActive l) := by
  intro l
  have hsorted : ∀ m : List ThreadSummary, (sortActive m).Sorted activeLE :=
    fun m => List.sorted_insertionSort activeLE m
  have hperm : ∀ m : List ThreadSummary, List.Perm (sortActive m) m :=
    fun m => List.perm_insertionSort activeLE m
  refine ⟨?_, hperm l, ?_⟩
  · exact List.Pairwise.imp (fun {a b} h => (activeLE_iff a b).mp h) (hsorted l)
  · intro hinj l2 hl2
    have hp : List.Perm (sortActive l2) (sortActive l) :=
      ((hperm l2).trans hl2).trans (hperm l).symm
    refine sorted_perm_eq_of_antisymm_on (sortActive l2) (sortActive l) hp
      (hsorted l2) (hsorted l) ?_
    intro a ha b hb hab hba
    have hamem : a ∈ l := hl2.subset ((hperm l2).subset ha)
    have hbmem : b ∈ l := hl2.subset ((hperm l2).subset hb)
    apply hinj a hamem b hbmem
    have h1 := (activeLE_iff a b).mp hab
    have h2 := (activeLE_iff b a).mp hba
    have hcomp : (activeKey a).1 = (activeKey b).1 ∧ (activeKey a).2 = (activeKey b).2 := by
      constructor <;> omega
    exact Prod.ext_iff.mpr hcomp

/-- Witness for the amended C8: with distinct keys, both input orders of
a two-element multiset sort to the same sequence. -/
theorem activeSort_sorted_and_multiset_unique_witness :
    sortActive [⟨"QmX", false, false, 0, some 1, none⟩,
                ⟨"QmY", false, false, 0, some 2, none⟩]
      = sortActive [⟨"QmY", false, false, 0, some 2, none⟩,
                    ⟨"QmX", false, false, 0, some 1, none⟩] :=
  (activeSort_sorted_and_multiset_unique
      [⟨"QmY", false, false, 0, some 2, none⟩,
       ⟨"QmX", false, false, 0, some 1, none⟩]).2.2 (by decide)
    [⟨"QmX", false, false, 0, some 1, none⟩,
     ⟨"QmY", false, false, 0, some 2, none⟩] (by decide)

/-- C10: the comparator treats an absent last-reply timestamp or an
absent sequence/post number as 0 (comparing any thread as if its missing
fields were 0); it is total (and a total function, so it never errors),
and a thread lacking a last-reply timestamp sorts strictly after every
thread with a positive one. -/
theorem activeCmp_defaults_missing_fields :
    ∀ (a b : ThreadSummary),
      activeCmp a b = activeCmp (normalizeThread a) (normalizeThread b)
      ∧ (activeLE a b ∨ activeLE b a)
      ∧ (∀ ts : Int, a.lastReplyTimestamp = none → b.lastReplyTimestamp = some ts →
          0 < ts → activeLE b a ∧ ¬activeLE a b) := by
  intro a b
  refine ⟨by simp [activeCmp, normalizeThread], total_of activeLE a b, ?_⟩
  intro ts ha hb hts
  constructor
  · rw [activeLE_iff]
    simp only [activeKey, ha, hb, Option.getD_some, Option.getD_none]
    omega
  · rw [activeLE_iff]
    simp only [activeKey, ha, hb, Option.getD_some, Option.getD_none]
    omega

/-- Witness for C10: a thread with timestamp 5 sorts strictly before one
with no timestamp. -/
theorem activeCmp_defaults_missing_fields_witness :
    activeLE ⟨"QmB", false, false, 0, some 5, none⟩ ⟨"QmA", false, false, 0, none, some 3⟩
      ∧ ¬activeLE ⟨"QmA", false, false, 0, none, some 3⟩
          ⟨"QmB", false, false, 0, some 5, none⟩ :=
  (activeCmp_defaults_missing_fields ⟨"QmA", false, false, 0, none, some 3⟩
    ⟨"QmB", false, false, 0, some 5, none⟩).2.2 5 rfl rfl (by decide)

/-- C9: for every state, path and starting filesystem — in particular
one where the parent directories of the path do not yet exist —
`saveState` succeeds, creating the parent directory, and an immediate
`loadState` of the same path returns exactly the JSON encoding of the
saved state; the encoding is injective, so the loaded value is equal to
the saved state and to no other. -/
theorem saveState_loadState_roundtrip :
    ∀ (fs : FS) (p : StorePath) (st : ArchiverState),
      (∃ fs2, saveState fs p st = some fs2
        ∧ loadState fs2 p = stateToJson st
        ∧ (dirname p = [] ∨ dirname p ∈ fs2.dirs))
      ∧ Function.Injective stateToJson := by
  intro fs p st
  constructor
  · have hdir : dirname p = [] ∨ dirname p ∈ (mkdirRecursive fs (dirname p)).dirs :=
      mkdirRecursive_creates fs (dirname p)
    have hw : saveState fs p st
        = some { mkdirRecursive fs (dirname p) with
                 files := (p, FileData.jsonData (stateToJson st))
                   :: (mkdirRecursive fs (dirname p)).files.filter (fun q => q.1 != p) } := by
      simp only [saveState, writeFile, if_pos hdir]
    refine ⟨_, hw, ?_, hdir⟩
    simp only [loadState, List.lookup, beq_self_eq_true]
  · intro st1 st2 h
    exact stateToJson_injective st1 st2 h

end FiveChan
